import Mathlib

/-!
Verification development for the coze2openai bridge (src/app.js).

The embedding below translates the request normalizer (app.js lines
143-234), the non-streaming response handler (lines 387-460) and the
streaming bridge `readStream` (lines 253-384) into executable Lean
definitions.  JavaScript objects are modelled as structures whose
optional fields are `Option`-typed (`none` models the JS value
`undefined`); JS truthiness tests on strings are modelled explicitly
(`undefined` and the empty string are falsy).  The stateful
`TextDecoder` used by `readStream` is modelled as a byte-at-a-time
fold carrying the pending partial multi-byte sequence.  `JSON.parse`
is a JS builtin, not repository code, so the streaming bridge is
parameterised by a line-payload parser `parse : List Char → Option
CozeEvent`; concrete theorems instantiate it with a finite table that
agrees with `JSON.parse` on the lines they use.  The time-derived
fields `id` and `created` of outbound chunks are not modelled (every
claim ignores them), and the constant `model` echo field is likewise
omitted from chunk values.
-/

/-- JS string-truthiness for an optional string field: `undefined` and
the empty string are falsy. -/
def jsTruthy : Option String → Bool
  | none => false
  | some s => s ≠ ""

/-- JS string-falsiness: `!x` for an optional string `x`. -/
def jsFalsy (o : Option String) : Bool := ¬ jsTruthy o

/-- The JS idiom `x || d` on an optional string `x` with default `d`. -/
def jsOrStr (o : Option String) (d : String) : String :=
  match o with
  | none => d
  | some s => if s = "" then d else s

/-- JS string coercion of an optional number (`undefined` prints as
the word undefined), as produced by `code + " " + message`. -/
def jsShowCode : Option Int → String
  | none => "undefined"
  | some n => toString n

/-- JS string coercion of an optional string in concatenation. -/
def jsShowMsg : Option String → String
  | none => "undefined"
  | some s => s

/-- The left-brace character, written via its code point. -/
def lbrace : Char := Char.ofNat 123

/-- The right-brace character, written via its code point. -/
def rbrace : Char := Char.ofNat 125

/-- A minimal JSON value model, used to state facts about the exact
shape of serialized objects the bridge writes. -/
inductive Json where
  | str : String → Json
  | obj : List (String × Json) → Json

/-- Field lookup in a JSON object value. -/
def Json.lookupKey : Json → String → Option Json
  | .str _, _ => none
  | .obj kvs, k => kvs.lookup k

/-! ## Incremental UTF-8 decoder

Model of the `TextDecoder` instance created at app.js line 256 and
used with the streaming option at line 264: a pending buffer of at
most three bytes carries a partial multi-byte sequence from one
arrival to the next.  Invalid bytes decode to U+FFFD, the decoder's
non-fatal replacement behaviour. -/

/-- Total byte length of the UTF-8 sequence introduced by a leading
byte, or 0 if the byte cannot lead a multi-byte sequence. -/
def seqLen (l : Nat) : Nat :=
  if 0xC2 ≤ l ∧ l ≤ 0xDF then 2
  else if 0xE0 ≤ l ∧ l ≤ 0xEF then 3
  else if 0xF0 ≤ l ∧ l ≤ 0xF4 then 4
  else 0

/-- Allowed range for the continuation byte at 1-based position `idx`
after leading byte `l` (WHATWG UTF-8 decode ranges, excluding
overlong encodings and surrogates). -/
def contRange (l : Nat) (idx : Nat) : Nat × Nat :=
  if idx = 1 then
    if l = 0xE0 then (0xA0, 0xBF)
    else if l = 0xED then (0x80, 0x9F)
    else if l = 0xF0 then (0x90, 0xBF)
    else if l = 0xF4 then (0x80, 0x8F)
    else (0x80, 0xBF)
  else (0x80, 0xBF)

/-- Payload bits of a leading byte. -/
def leadVal (l : Nat) : Nat :=
  if l ≤ 0xDF then l - 0xC0 else if l ≤ 0xEF then l - 0xE0 else l - 0xF0

/-- Code point assembled from a leading byte and its continuations. -/
def codePoint (l : Nat) (conts : List Nat) : Nat :=
  conts.foldl (fun a c => a * 64 + (c - 0x80)) (leadVal l)

/-- The replacement character U+FFFD. -/
def fffd : Char := Char.ofNat 0xFFFD

/-- Feed one byte `b` to the decoder with pending bytes `pend`;
returns the new pending bytes and the characters emitted.  A byte
that cannot extend the pending sequence emits U+FFFD for the pending
bytes and is then reconsidered as the start of a new sequence. -/
def utf8Step (pend : List Nat) (b : Nat) : List Nat × List Char :=
  match pend with
  | [] =>
    if b < 0x80 then ([], [Char.ofNat b])
    else if 2 ≤ seqLen b then ([b], [])
    else ([], [fffd])
  | l :: conts =>
    let (lo, hi) := contRange l (conts.length + 1)
    if lo ≤ b ∧ b ≤ hi then
      if conts.length + 2 = seqLen l then
        ([], [Char.ofNat (codePoint l (conts ++ [b]))])
      else (l :: (conts ++ [b]), [])
    else
      if b < 0x80 then ([], [fffd, Char.ofNat b])
      else if 2 ≤ seqLen b then ([b], [fffd])
      else ([], [fffd, fffd])

/-- One fold step of the arrival decoder. -/
def utf8Go (acc : List Nat × List Char) (b : Nat) : List Nat × List Char :=
  ((utf8Step acc.1 b).1, acc.2 ++ (utf8Step acc.1 b).2)

/-- Decode an arrival of bytes, threading the pending partial
sequence; models `decoder.decode(value, stream)` at app.js:264. -/
def utf8Feed (pend : List Nat) (bytes : List Nat) : List Nat × List Char :=
  bytes.foldl utf8Go (pend, [])

/-! ## Line buffering

Models `buffer.split("\n")` at app.js:265: all array elements except
the last are complete lines; the last (possibly incomplete) element
becomes the new buffer, replacing its previous content (line 376). -/

/-- Split text into its complete newline-terminated lines and the
trailing incomplete remainder. -/
def splitLines : List Char → List (List Char) × List Char
  | [] => ([], [])
  | c :: rest =>
    let (ls, r) := splitLines rest
    if c = '\n' then ([] :: ls, r)
    else
      match ls with
      | [] => ([], c :: r)
      | l :: tl => ((c :: l) :: tl, r)

/-! ## Upstream events and outbound writes -/

/-- The image object optionally attached to an upstream message. -/
structure CozeImage where
  url : String
  type : Option String
deriving DecidableEq

/-- Payload of an upstream event of kind message (role, type,
content, content type and optional image, all optional JS fields). -/
structure CozeMsg where
  role : Option String
  type : Option String
  content_type : Option String
  content : Option String
  image : Option CozeImage
deriving DecidableEq

/-- The nested detailed-reason object of an upstream error event. -/
structure ErrInfo where
  err_msg : Option String
deriving DecidableEq

/-- One decoded upstream stream event, dispatched on its event field
at app.js lines 285, 333 and 355; kinds with no branch (among them
ping) fall through with no effect. -/
inductive CozeEvent where
  | message : CozeMsg → CozeEvent
  | done : CozeEvent
  | error : Option Int → Option String → Option ErrInfo → CozeEvent
  | ping : CozeEvent
  | other : String → CozeEvent
deriving DecidableEq

/-- The delta object of an outbound chunk. -/
inductive Delta where
  | text : Option String → Delta
  | image : String → String → String → Delta
  | empty : Delta
deriving DecidableEq

/-- One `res.write` performed by the streaming bridge.  `chunk d f`
is a chat.completion.chunk whose single choice has delta `d` and
finish_reason `f` (time-derived id/created and the echoed model are
not modelled); `errEnv m` is the error envelope of app.js:364-371;
`sentinel` is the literal terminal line. -/
inductive OutboundWrite where
  | chunk : Delta → Option String → OutboundWrite
  | errEnv : Option String → OutboundWrite
  | sentinel : OutboundWrite
deriving DecidableEq

/-- The exact JSON object written by the error branch at
app.js:364-371: an error field holding an object with a fixed inner
error notice and the computed message; a JS-undefined message is
dropped by JSON.stringify. -/
def errorEnvelopeJson (errorMsg : Option String) : Json :=
  .obj [("error", .obj
    ([("error", .str "Unexpected response from Coze API.")] ++
      (match errorMsg with
       | some m => [("message", .str m)]
       | none => [])))]

/-- The error-envelope message computed at app.js:356-360: the code
and top-level message concatenated, replaced by the nested
error_information err_msg whenever error_information is present. -/
def errMsgOf (code : Option Int) (msg : Option String)
    (info : Option ErrInfo) : Option String :=
  match info with
  | some i => i.err_msg
  | none => some (jsShowCode code ++ " " ++ jsShowMsg msg)

/-! ## The streaming bridge state machine -/

/-- Per-connection state of `readStream`: the decoder's pending
bytes, the line buffer, whether the outbound response has been ended,
whether the catch handler at app.js:378-381 has fired (aborting all
further processing), and the writes performed so far. -/
structure BridgeState where
  pend : List Nat
  buffer : List Char
  ended : Bool
  aborted : Bool
  writes : List OutboundWrite
deriving DecidableEq

/-- The state at the start of a streamed response (app.js:256-257). -/
def initState : BridgeState :=
  { pend := [], buffer := [], ended := false, aborted := false, writes := [] }

/-- The effect of one dispatched event: writes performed, whether the
response was ended, and whether a TypeError aborted processing.  An
event's effect does not depend on the bridge state, mirroring the
fact that the dispatch code at app.js:285-374 never consults one. -/
def dispatchEffect (e : CozeEvent) : List OutboundWrite × Bool × Bool :=
  match e with
  | .message m =>
    if m.role = some "assistant" ∧
        (m.type = some "answer" ∨ m.content_type = some "image") then
      let chunkType := jsOrStr m.content_type "text"
      let chunkContent : Option String :=
        if chunkType = "image" ∧ m.image.isSome then
          some ((m.image.getD ⟨"", none⟩).url)
        else m.content
      if chunkContent ≠ some "" then
        if chunkType = "image" then
          match m.image with
          | some img =>
            ([.chunk (.image "[图片]" img.url (jsOrStr img.type "image/jpeg"))
                none], false, false)
          | none =>
            -- app.js:309 reads message.image.type with no image object:
            -- TypeError, caught at app.js:378, which ends the response.
            ([], true, true)
        else ([.chunk (.text chunkContent) none], false, false)
      else ([], false, false)
    else ([], false, false)
  | .done => ([.chunk .empty (some "stop"), .sentinel], true, false)
  | .error code msg info =>
    ([.errEnv (errMsgOf code msg info), .sentinel], true, false)
  | .ping => ([], false, false)
  | .other _ => ([], false, false)

/-- Apply an effect to the bridge state: append the writes, and end
or abort monotonically. -/
def applyEffect (st : BridgeState) (eff : List OutboundWrite × Bool × Bool) :
    BridgeState :=
  { st with
    writes := st.writes ++ eff.1
    ended := st.ended || eff.2.1
    aborted := st.aborted || eff.2.2 }

/-- The event-data marker checked at app.js:270. -/
def dataMark : List Char := "data:".data

/-- Leading and trailing whitespace removal (JS String.trim). -/
def lcTrim (l : List Char) : List Char :=
  ((l.dropWhile Char.isWhitespace).reverse.dropWhile Char.isWhitespace).reverse

/-- The effect of one complete line (app.js:267-283): trim, require
the data marker, strip it and trim, require a payload that looks like
a JSON object, then parse; a parse failure is swallowed. -/
def lineEffect (parse : List Char → Option CozeEvent) (rawLine : List Char) :
    List OutboundWrite × Bool × Bool :=
  let line := lcTrim rawLine
  if dataMark.isPrefixOf line then
    let payload := lcTrim (line.drop 5)
    if payload.head? = some lbrace then
      match parse payload with
      | some e => dispatchEffect e
      | none => ([], false, false)
    else ([], false, false)
  else ([], false, false)

/-- Process one complete line against the bridge state. -/
def processLine (parse : List Char → Option CozeEvent) (st : BridgeState)
    (rawLine : List Char) : BridgeState :=
  applyEffect st (lineEffect parse rawLine)

/-- Process the complete lines of one arrival in order; once the
catch handler has fired, remaining lines are not processed. -/
def processLines (parse : List Char → Option CozeEvent) (st : BridgeState)
    (ls : List (List Char)) : BridgeState :=
  ls.foldl (fun s l => if s.aborted then s else processLine parse s l) st

/-- Append decoded text to the line buffer, process the complete
lines, and keep the trailing incomplete line as the new buffer
(app.js:264-265, 376); on abort the buffer keeps the concatenated
text, as the assignment at line 376 is never reached. -/
def feedText (parse : List Char → Option CozeEvent) (st : BridgeState)
    (t : List Char) : BridgeState :=
  let buf := st.buffer ++ t
  let st1 := processLines parse { st with buffer := buf } (splitLines buf).1
  if st1.aborted then st1 else { st1 with buffer := (splitLines buf).2 }

/-- Process one arrival of upstream bytes (one iteration of the while
loop at app.js:261-377); after an abort the loop has exited and
arrivals are no longer read. -/
def processArrival (parse : List Char → Option CozeEvent) (st : BridgeState)
    (bytes : List Nat) : BridgeState :=
  if st.aborted then st
  else
    feedText parse { st with pend := (utf8Feed st.pend bytes).1 }
      (utf8Feed st.pend bytes).2

/-- Run the bridge over a sequence of byte arrivals. -/
def runArrivals (parse : List Char → Option CozeEvent) (st : BridgeState)
    (arrivals : List (List Nat)) : BridgeState :=
  arrivals.foldl (processArrival parse) st

/-- Projection to the externally observable part of the bridge state:
the writes performed, whether the response was ended, and whether
processing aborted.  The buffer and decoder state are internal. -/
def outView (s : BridgeState) : List OutboundWrite × Bool × Bool :=
  (s.writes, s.ended, s.aborted)

/-- Line processing expressed on the observable triple alone; this is
possible because no dispatch branch of app.js:285-374 reads the
response state. -/
def runLines (parse : List Char → Option CozeEvent) (ls : List (List Char))
    (v : List OutboundWrite × Bool × Bool) : List OutboundWrite × Bool × Bool :=
  ls.foldl
    (fun v l =>
      if v.2.2 then v
      else (v.1 ++ (lineEffect parse l).1, v.2.1 || (lineEffect parse l).2.1,
        v.2.2 || (lineEffect parse l).2.2))
    v

/-! ## The request normalizer (app.js:158-234) -/

/-- One inbound chat message as the normalizer reads it: every field
is an optional JS property. -/
structure InMsg where
  role : Option String
  content : Option String
  content_type : Option String
  image_url : Option String
  image_type : Option String
deriving DecidableEq

/-- The empty object used as lastMessage when the message list is
empty (app.js:194). -/
def emptyMsg : InMsg :=
  { role := none, content := none, content_type := none,
    image_url := none, image_type := none }

/-- One entry pushed onto chat_history (app.js:174-188). -/
inductive HistEntry where
  | text : Option String → Option String → HistEntry
  | image : Option String → String → String → HistEntry
deriving DecidableEq

/-- Whether a history message takes the image branch at app.js:179:
content_type strictly equals image and image_url is truthy. -/
def isImageHist (m : InMsg) : Bool :=
  m.content_type = some "image" ∧ jsTruthy m.image_url

/-- The history entry built for one non-last message, or none when
the message matches neither the text branch (falsy or text
content_type) nor the image branch and is silently dropped. -/
def histEntryOf (m : InMsg) : Option HistEntry :=
  if jsFalsy m.content_type ∨ m.content_type = some "text" then
    some (.text m.role m.content)
  else if isImageHist m then
    some (.image m.role (m.image_url.getD "") (jsOrStr m.image_type "image/jpeg"))
  else none

/-- Whether the last message takes the image-query branch at
app.js:198. -/
def isImageQuery (m : InMsg) : Bool :=
  m.content_type = some "image" ∧ jsTruthy m.image_url

/-- The queryObj built at app.js:196-213: content_type, content and
image fields as assigned by the two branches. -/
structure QueryObj where
  content_type : String
  content : Option String
  image : Option CozeImage
deriving DecidableEq

/-- Build queryObj from the last message. -/
def queryObjOf (m : InMsg) : QueryObj :=
  if isImageQuery m then
    { content_type := "image", content := none,
      image := some ⟨m.image_url.getD "", some (jsOrStr m.image_type "image/jpeg")⟩ }
  else
    { content_type := "text", content := m.content, image := none }

/-- queryString after app.js:195-213: initialised to the empty
string, overwritten with the last message's content (possibly
undefined) in the text branch only. -/
def queryStringOf (m : InMsg) : Option String :=
  if isImageQuery m then some "" else m.content

/-- app.js:216: the bot selector is the configured table entry when
the model and the entry are both truthy, else the configured
default. -/
def bot_id (botConfig : List (String × String)) (default_bot_id : String)
    (model : Option String) : String :=
  match model with
  | none => default_bot_id
  | some m =>
    if m = "" then default_bot_id
    else
      match botConfig.lookup m with
      | some v => if v = "" then default_bot_id else v
      | none => default_bot_id

/-- The inbound request fields the normalizer reads (app.js:158-161);
an absent messages property behaves like the empty list throughout
the code and is modelled by it. -/
structure InboundData where
  messages : List InMsg
  model : Option String
  user : Option String
  stream : Option Bool
deriving DecidableEq

/-- The normalizer's result: the upstream request body of
app.js:217-228 plus the hasImage flag that selects the endpoint.
`query = none` means the query property was never assigned;
`query = some none` means it was assigned the JS value undefined.
`image = some none` means the image property was assigned
queryObj.image where queryObj had no image field. -/
structure NormResult where
  user : String
  bot_id : String
  chat_history : List HistEntry
  stream : Bool
  query : Option (Option String)
  image : Option (Option CozeImage)
  hasImage : Bool
deriving DecidableEq

/-- The request normalizer, app.js:158-234. -/
def normalizeRequest (botConfig : List (String × String)) (default_bot_id : String)
    (d : InboundData) : NormResult :=
  let msgs := d.messages
  let chatHistory := msgs.dropLast.filterMap histEntryOf
  let histImg := msgs.dropLast.any isImageHist
  let lastMessage := msgs.getLastD emptyMsg
  let hasImage := histImg || isImageQuery lastMessage
  { user := d.user.getD "apiuser"
    bot_id := bot_id botConfig default_bot_id d.model
    chat_history := chatHistory
    stream := d.stream.getD false
    query := if hasImage then none else some (queryStringOf lastMessage)
    image := if hasImage then some (queryObjOf lastMessage).image else none
    hasImage := hasImage }

/-- The upstream endpoint selection at app.js:231-234. -/
def coze_api_url (coze_api_base : String) (hasImage : Bool) : String :=
  if hasImage then "https://" ++ coze_api_base ++ "/v3/vision/chat?"
  else "https://" ++ coze_api_base ++ "/v3/chat?"

/-! ## The non-streaming response handler (app.js:387-460) -/

/-- One message of the upstream JSON body's messages list. -/
structure RespMsg where
  role : Option String
  type : Option String
  content_type : Option String
  content : Option String
  image : Option CozeImage
deriving DecidableEq

/-- The upstream JSON body fields the handler reads. -/
structure CozeBody where
  code : Option Int
  msg : Option String
  messages : List RespMsg
deriving DecidableEq

/-- The value bound to result at app.js:399-411: the answer message's
raw content, replaced by the compact content/image envelope when the
effective content type is image and an image object is attached. -/
inductive AnswerVal where
  | str : Option String → AnswerVal
  | envelope : String → CozeImage → AnswerVal
deriving DecidableEq

/-- The content field of the outbound choices message, app.js:431: the
raw value when the effective content type is text, otherwise the
JSON.stringify rendering of result. -/
inductive OutContent where
  | raw : Option String → OutContent
  | jsonOf : AnswerVal → OutContent
deriving DecidableEq

/-- The answer-message predicate at app.js:392-396. -/
def isAnswer (m : RespMsg) : Bool :=
  m.role = some "assistant" ∧
    (m.type = some "answer" ∨ m.content_type = some "image")

/-- The outbound content computed from the selected answer message,
app.js:399-431. -/
def answerContent (m : RespMsg) : OutContent :=
  let contentType := jsOrStr m.content_type "text"
  let result : AnswerVal :=
    if contentType = "image" ∧ m.image.isSome then
      .envelope "[图片]"
        ⟨(m.image.getD ⟨"", none⟩).url,
         some (jsOrStr ((m.image.getD ⟨"", none⟩).type) "image/jpeg")⟩
    else .str m.content
  if contentType = "text" then .raw m.content else .jsonOf result

/-- Outcome of the non-streaming branch: a 200 chat-completion
document (content and finish_reason of its single choice), the 500
No-answer error at app.js:445, or the 500 application-error envelope
at app.js:449-454 carrying the upstream msg. -/
inductive NonStreamOutcome where
  | ok : OutContent → String → NonStreamOutcome
  | noAnswer : NonStreamOutcome
  | appError : Option String → NonStreamOutcome
deriving DecidableEq

/-- The non-streaming response handler, app.js:389-455. -/
def nonStreamHandler (body : CozeBody) : NonStreamOutcome :=
  if body.code = some 0 ∧ body.msg = some "success" then
    match body.messages.find? isAnswer with
    | some m => .ok (answerContent m) "stop"
    | none => .noAnswer
  else .appError body.msg

/-- The HTTP status attached to each outcome (app.js:443, 445, 449). -/
def httpStatus : NonStreamOutcome → Nat
  | .ok _ _ => 200
  | .noAnswer => 500
  | .appError _ => 500

/-! ## Concrete test material

`parseTest` is a finite table standing in for the JS builtin
`JSON.parse` on the concrete payloads used by closed theorems below;
it maps the serialized done event to the done event and rejects
everything else, exactly as `JSON.parse` would succeed on the former
and (for the payloads used) throw on the latter. -/

/-- The payload text of a serialized done event. -/
def donePayload : List Char :=
  [lbrace] ++ "\"event\":\"done\"".data ++ [rbrace]

/-- One complete upstream line carrying a done event. -/
def doneLine : List Char := "data: ".data ++ donePayload ++ ['\n']

/-- The bytes of an upstream arrival holding two done frames. -/
def twoDoneBytes : List Nat := (doneLine ++ doneLine).map Char.toNat

/-- Table parser agreeing with JSON.parse on the payloads used by the
concrete theorems. -/
def parseTest (l : List Char) : Option CozeEvent :=
  if l = donePayload then some .done else none

/-! ## Helper lemmas for the streaming bridge -/

lemma utf8Fold_acc (bytes : List Nat) (p : List Nat) (t : List Char) :
    bytes.foldl utf8Go (p, t) =
      ((bytes.foldl utf8Go (p, [])).1, t ++ (bytes.foldl utf8Go (p, [])).2) := by
  induction bytes generalizing p t with
  | nil => simp
  | cons b bs ih =>
    simp only [List.foldl_cons]
    rw [show utf8Go (p, t) b = ((utf8Step p b).1, t ++ (utf8Step p b).2) from rfl,
      show utf8Go (p, []) b = ((utf8Step p b).1, (utf8Step p b).2) from by
        simp [utf8Go]]
    rw [ih ((utf8Step p b).1) (t ++ (utf8Step p b).2),
      ih ((utf8Step p b).1) ((utf8Step p b).2)]
    simp [List.append_assoc]

lemma utf8Feed_append (p : List Nat) (a b : List Nat) :
    utf8Feed p (a ++ b) =
      ((utf8Feed (utf8Feed p a).1 b).1,
       (utf8Feed p a).2 ++ (utf8Feed (utf8Feed p a).1 b).2) := by
  unfold utf8Feed
  rw [List.foldl_append]
  rw [show a.foldl utf8Go (p, []) =
        ((a.foldl utf8Go (p, [])).1, (a.foldl utf8Go (p, [])).2) from rfl]
  rw [utf8Fold_acc b ((a.foldl utf8Go (p, [])).1) ((a.foldl utf8Go (p, [])).2)]

lemma splitLines_append (a b : List Char) :
    splitLines (a ++ b) =
      ((splitLines a).1 ++ (splitLines ((splitLines a).2 ++ b)).1,
       (splitLines ((splitLines a).2 ++ b)).2) := by
  induction a with
  | nil => simp [splitLines]
  | cons c a ih =>
    by_cases hc : c = '\n'
    · subst hc
      simp [splitLines, ih]
    · rcases h1 : splitLines a with ⟨ls1, r1⟩
      rcases h2 : splitLines (r1 ++ b) with ⟨ls2, r2⟩
      have ih2 : splitLines (a ++ b) = (ls1 ++ ls2, r2) := by
        rw [ih, h1]
        simp only [h2]
      cases ls1 with
      | nil =>
        cases ls2 with
        | nil => simp [splitLines, hc, ih2, h1, h2, List.cons_append]
        | cons l2 tl2 => simp [splitLines, hc, ih2, h1, h2, List.cons_append]
      | cons l tl => simp [splitLines, hc, ih2, h1, h2, List.cons_append]

lemma runLines_append (parse : List Char → Option CozeEvent)
    (ls1 ls2 : List (List Char)) (v : List OutboundWrite × Bool × Bool) :
    runLines parse (ls1 ++ ls2) v = runLines parse ls2 (runLines parse ls1 v) := by
  simp [runLines, List.foldl_append]

lemma runLines_of_aborted (parse : List Char → Option CozeEvent)
    (ls : List (List Char)) (v : List OutboundWrite × Bool × Bool)
    (h : v.2.2 = true) : runLines parse ls v = v := by
  induction ls with
  | nil => rfl
  | cons l ls ih => simp [runLines, h] at ih ⊢; simp [ih]

lemma outView_processLines (parse : List Char → Option CozeEvent)
    (ls : List (List Char)) (st : BridgeState) :
    outView (processLines parse st ls) = runLines parse ls (outView st) := by
  induction ls generalizing st with
  | nil => rfl
  | cons l ls ih =>
    simp only [processLines, List.foldl_cons, runLines]
    by_cases h : st.aborted
    · have hv : (outView st).2.2 = true := h
      simp only [h, if_pos, hv]
      exact ih st
    · have hv : (outView st).2.2 = true ↔ False := by simp [outView, h]
      simp only [h, if_neg, Bool.not_eq_true, hv, if_false]
      have hone : outView (processLine parse st l) =
          ((outView st).1 ++ (lineEffect parse l).1,
           (outView st).2.1 || (lineEffect parse l).2.1,
           (outView st).2.2 || (lineEffect parse l).2.2) := rfl
      exact (ih (processLine parse st l)).trans (by rw [hone]; rfl)

lemma processLines_pend_eq (parse : List Char → Option CozeEvent)
    (ls : List (List Char)) (st : BridgeState) :
    (processLines parse st ls).pend = st.pend := by
  induction ls generalizing st with
  | nil => rfl
  | cons l ls ih =>
    simp only [processLines, List.foldl_cons]
    by_cases h : st.aborted
    · simp only [h, if_pos]
      exact ih st
    · simp only [h, if_neg, Bool.not_eq_true]
      exact (ih (processLine parse st l)).trans rfl

lemma feedText_pend_eq (parse : List Char → Option CozeEvent)
    (st : BridgeState) (t : List Char) :
    (feedText parse st t).pend = st.pend := by
  simp only [feedText]
  by_cases h : (processLines parse { st with buffer := st.buffer ++ t }
      (splitLines (st.buffer ++ t)).1).aborted
  · rw [if_pos h]
    exact (processLines_pend_eq parse _ _).trans rfl
  · rw [if_neg (by simp [h])]
    exact (processLines_pend_eq parse _ _).trans rfl

lemma outView_feedText (parse : List Char → Option CozeEvent)
    (st : BridgeState) (t : List Char) :
    outView (feedText parse st t) =
      runLines parse (splitLines (st.buffer ++ t)).1 (outView st) := by
  simp only [feedText]
  by_cases h : (processLines parse { st with buffer := st.buffer ++ t }
      (splitLines (st.buffer ++ t)).1).aborted
  · rw [if_pos h]
    exact (outView_processLines parse _ _).trans rfl
  · rw [if_neg (by simp [h])]
    have hb : outView ({ processLines parse { st with buffer := st.buffer ++ t }
        (splitLines (st.buffer ++ t)).1 with
          buffer := (splitLines (st.buffer ++ t)).2 }) =
        outView (processLines parse { st with buffer := st.buffer ++ t }
          (splitLines (st.buffer ++ t)).1) := rfl
    exact hb.trans ((outView_processLines parse _ _).trans rfl)

lemma feedText_aborted (parse : List Char → Option CozeEvent)
    (st : BridgeState) (t : List Char) :
    (feedText parse st t).aborted =
      (runLines parse (splitLines (st.buffer ++ t)).1 (outView st)).2.2 :=
  congrArg (fun v => v.2.2) (outView_feedText parse st t)

lemma feedText_buffer (parse : List Char → Option CozeEvent)
    (st : BridgeState) (t : List Char)
    (h : (feedText parse st t).aborted = false) :
    (feedText parse st t).buffer = (splitLines (st.buffer ++ t)).2 := by
  simp only [feedText] at h ⊢
  by_cases h1 : (processLines parse { st with buffer := st.buffer ++ t }
      (splitLines (st.buffer ++ t)).1).aborted
  · rw [if_pos h1] at h
    exact absurd h1 (by simp [h])
  · rw [if_neg (by simp [h1])]

lemma outView_initState : outView initState = ([], false, false) := rfl

lemma runArrivals_pair (parse : List Char → Option CozeEvent)
    (a b : List Nat) :
    runArrivals parse initState [a, b] =
      processArrival parse (processArrival parse initState a) b := by
  simp [runArrivals]

lemma runArrivals_single (parse : List Char → Option CozeEvent)
    (a : List Nat) :
    runArrivals parse initState [a] = processArrival parse initState a := by
  simp [runArrivals]

lemma processArrival_initState (parse : List Char → Option CozeEvent)
    (a : List Nat) :
    processArrival parse initState a =
      feedText parse { initState with pend := (utf8Feed [] a).1 }
        (utf8Feed [] a).2 := by
  simp [processArrival, initState]

/-- C1: splitting any upstream byte stream at any offset into two
arrivals yields exactly the same sequence of outbound writes as
feeding it whole (time-derived id/created fields are not part of the
write model).  This holds for every byte stream, in particular every
well-formed one, and for every payload parser: the incremental
decoder carries partial multi-byte sequences across arrivals and the
line buffer keeps exactly the trailing incomplete line. -/
theorem c1_split_stream_equivalence (parse : List Char → Option CozeEvent)
    (bs : List Nat) (i : Nat) :
    (runArrivals parse initState [bs.take i, bs.drop i]).writes =
      (runArrivals parse initState [bs]).writes := by
  have hfeed : utf8Feed [] bs =
      ((utf8Feed (utf8Feed [] (bs.take i)).1 (bs.drop i)).1,
       (utf8Feed [] (bs.take i)).2 ++
         (utf8Feed (utf8Feed [] (bs.take i)).1 (bs.drop i)).2) := by
    conv_lhs => rw [← List.take_append_drop i bs]
    rw [utf8Feed_append]
  set p1 := (utf8Feed [] (bs.take i)).1 with hp1
  set t1 := (utf8Feed [] (bs.take i)).2 with ht1
  set p2 := (utf8Feed p1 (bs.drop i)).1 with hp2
  set t2 := (utf8Feed p1 (bs.drop i)).2 with ht2
  set s1 := processArrival parse initState (bs.take i) with hs1
  have hview1 : outView s1 = runLines parse (splitLines t1).1 ([], false, false) := by
    rw [hs1, processArrival_initState, outView_feedText]
    rfl
  have hsing : outView (runArrivals parse initState [bs]) =
      runLines parse (splitLines (t1 ++ t2)).1 ([], false, false) := by
    rw [runArrivals_single, processArrival_initState, outView_feedText, hfeed]
    rfl
  have hsplitL := splitLines_append t1 t2
  have hsingle2 : outView (runArrivals parse initState [bs]) =
      runLines parse (splitLines ((splitLines t1).2 ++ t2)).1
        (runLines parse (splitLines t1).1 ([], false, false)) := by
    rw [hsing, hsplitL]
    exact runLines_append parse _ _ _
  have hmain : outView (runArrivals parse initState [bs.take i, bs.drop i]) =
      outView (runArrivals parse initState [bs]) := by
    rw [runArrivals_pair, ← hs1]
    by_cases hab : s1.aborted
    · have hpair : processArrival parse s1 (bs.drop i) = s1 := by
        simp [processArrival, hab]
      have habv : (runLines parse (splitLines t1).1 ([], false, false)).2.2 = true := by
        rw [← hview1]
        exact hab
      rw [hpair, hsingle2, runLines_of_aborted parse _ _ habv]
      exact hview1
    · have hpend : s1.pend = p1 := by
        rw [hs1, processArrival_initState, feedText_pend_eq]
      have hbuf : s1.buffer = (splitLines t1).2 := by
        rw [hs1, processArrival_initState] at hab ⊢
        have := feedText_buffer parse
          { initState with pend := p1 } t1 (by simpa using hab)
        simpa using this
      have hpair : processArrival parse s1 (bs.drop i) =
          feedText parse { s1 with pend := p2 } t2 := by
        simp [processArrival, hab, hpend]
      have hrb : ({ s1 with pend := p2 } : BridgeState).buffer = s1.buffer := rfl
      have hsv : outView ({ s1 with pend := p2 }) = outView s1 := rfl
      rw [hpair, outView_feedText, hrb, hsv, hbuf, hview1, hsingle2]
  exact congrArg (fun v => v.1) hmain

/-! ## Normalizer lemmas and claims C2, C9, C10 -/

lemma filterMap_length_of_isSome {α β : Type} (f : α → Option β) :
    ∀ (l : List α), (∀ m ∈ l, (f m).isSome) →
      (l.filterMap f).length = l.length := by
  intro l
  induction l with
  | nil => intro _; rfl
  | cons a l ih =>
    intro h
    rcases hfa : f a with _ | b
    · exact absurd (h a (by simp)) (by simp [hfa])
    · simp only [List.filterMap_cons, hfa, List.length_cons]
      rw [ih (fun m hm => h m (by simp [hm]))]

/-- C2 counterexample: a history message with image content_type but
no image_url is silently dropped, so chat_history is not the input
list minus its last element: its length is 0 where the claim requires
length 1. -/
theorem c2_counterexample :
    (normalizeRequest [] ""
      { messages := [
          { role := some "user", content := none, content_type := some "image",
            image_url := none, image_type := none },
          { role := some "user", content := some "hi", content_type := none,
            image_url := none, image_type := none }],
        model := none, user := none, stream := none }).chat_history.length = 0 ∧
    ([({ role := some "user", content := none, content_type := some "image",
          image_url := none, image_type := none } : InMsg),
       { role := some "user", content := some "hi", content_type := none,
          image_url := none, image_type := none }].length - 1) = 1 := by
  constructor
  · rfl
  · rfl

/-- C2 amended: chat_history is the order-preserving translation of
the non-last messages, dropping those that match neither the text nor
the image branch; when every non-last message matches one branch the
mapping is one-to-one and the length is the input length minus one.
The query object is built solely from the last message, and an empty
input yields a text query whose content is undefined. -/
theorem c2_history_query (cfg : List (String × String)) (dflt : String)
    (d : InboundData)
    (h : ∀ m ∈ d.messages.dropLast, (histEntryOf m).isSome) :
    (normalizeRequest cfg dflt d).chat_history =
      d.messages.dropLast.filterMap histEntryOf ∧
    (normalizeRequest cfg dflt d).chat_history.length = d.messages.length - 1 ∧
    (∀ pre last, d.messages = pre ++ [last] →
      (normalizeRequest cfg dflt d).query =
        (if pre.any isImageHist || isImageQuery last then none
         else some (queryStringOf last))) ∧
    (d.messages = [] →
      (normalizeRequest cfg dflt d).query = some none ∧
      queryObjOf emptyMsg =
        { content_type := "text", content := none, image := none }) := by
  refine ⟨rfl, ?_, ?_, ?_⟩
  · show (d.messages.dropLast.filterMap histEntryOf).length = d.messages.length - 1
    rw [filterMap_length_of_isSome histEntryOf _ h, List.length_dropLast]
  · intro pre last hm
    show (if (d.messages.dropLast.any isImageHist || isImageQuery (d.messages.getLastD emptyMsg))
        then none else some (queryStringOf (d.messages.getLastD emptyMsg))) = _
    rw [hm, List.dropLast_concat, List.getLastD_concat]
  · intro hm
    constructor
    · show (if (d.messages.dropLast.any isImageHist ||
          isImageQuery (d.messages.getLastD emptyMsg))
          then none else some (queryStringOf (d.messages.getLastD emptyMsg))) =
        some none
      rw [hm]
      rfl
    · rfl

/-- Closed witness for the C2 amended theorem at a two-text-message
input: both hypotheses hold and history keeps exactly the first
message. -/
theorem c2_history_query_witness :
    (normalizeRequest [] ""
      { messages := [
          { role := some "user", content := some "a", content_type := none,
            image_url := none, image_type := none },
          { role := some "user", content := some "b", content_type := none,
            image_url := none, image_type := none }],
        model := none, user := none, stream := none }).chat_history.length =
      ([({ role := some "user", content := some "a", content_type := none,
            image_url := none, image_type := none } : InMsg),
         { role := some "user", content := some "b", content_type := none,
            image_url := none, image_type := none }].length - 1) :=
  (c2_history_query [] ""
    { messages := [
        { role := some "user", content := some "a", content_type := none,
          image_url := none, image_type := none },
        { role := some "user", content := some "b", content_type := none,
          image_url := none, image_type := none }],
      model := none, user := none, stream := none }
    (by decide)).2.1

/-- C9 counterexample: with no configured default and no table entry
for the model, the normalizer does not fail with a ConfigurationError
-- it builds a complete upstream request whose bot identity is the
empty string. -/
theorem c9_counterexample :
    (normalizeRequest [] ""
      { messages := [
          { role := some "user", content := some "hi", content_type := none,
            image_url := none, image_type := none }],
        model := some "x", user := none, stream := none }).bot_id = "" ∧
    (normalizeRequest [] ""
      { messages := [
          { role := some "user", content := some "hi", content_type := none,
            image_url := none, image_type := none }],
        model := some "x", user := none, stream := none }).query =
      some (some "hi") := by
  exact ⟨rfl, rfl⟩

/-- C9 amended: the bot selector is the configured table entry when
the model and the entry are both truthy, otherwise the configured
default; with an empty table and empty default the request proceeds
with an empty bot identity instead of failing. -/
theorem c9_identity_resolution (cfg : List (String × String)) (dflt : String)
    (d : InboundData) :
    (∀ m v, d.model = some m → m ≠ "" → cfg.lookup m = some v → v ≠ "" →
      (normalizeRequest cfg dflt d).bot_id = v) ∧
    (∀ m, d.model = some m → cfg.lookup m = none →
      (normalizeRequest cfg dflt d).bot_id = dflt) ∧
    (d.model = none → (normalizeRequest cfg dflt d).bot_id = dflt) ∧
    (cfg = [] → dflt = "" → (normalizeRequest cfg dflt d).bot_id = "") := by
  refine ⟨?_, ?_, ?_, ?_⟩
  · intro m v hm hne hl hv
    show bot_id cfg dflt d.model = v
    rw [hm]
    simp [bot_id, hne, hl, hv]
  · intro m hm hl
    show bot_id cfg dflt d.model = dflt
    rw [hm]
    by_cases hne : m = ""
    · simp [bot_id, hne]
    · simp [bot_id, hne, hl]
  · intro hm
    show bot_id cfg dflt d.model = dflt
    rw [hm]
    rfl
  · intro hcfg hd
    show bot_id cfg dflt d.model = ""
    subst hcfg hd
    cases hm : d.model with
    | none => rfl
    | some m =>
      by_cases hne : m = ""
      · simp [bot_id, hne]
      · simp [bot_id, hne]

/-- Closed witness for the C9 amended theorem: a configured entry is
used when present. -/
theorem c9_identity_resolution_witness :
    (normalizeRequest [("gpt", "bot7")] "dflt"
      { messages := [], model := some "gpt", user := none,
        stream := none }).bot_id = "bot7" :=
  (c9_identity_resolution [("gpt", "bot7")] "dflt"
    { messages := [], model := some "gpt", user := none, stream := none }).1
    "gpt" "bot7" rfl (by decide) (by decide) (by decide)

/-- C10: a request whose history contains an image message while the
final message is textual sets the image flag, routes to the vision
endpoint, and builds a body with no query property and an image
property assigned undefined -- the final message's text is dropped
from the outgoing payload. -/
theorem c10_history_image_drops_final_text (cfg : List (String × String))
    (dflt : String) (d : InboundData) (pre : List InMsg) (last : InMsg)
    (hm : d.messages = pre ++ [last])
    (hhist : pre.any isImageHist = true)
    (hlast : isImageQuery last = false) :
    (normalizeRequest cfg dflt d).hasImage = true ∧
    (normalizeRequest cfg dflt d).query = none ∧
    (normalizeRequest cfg dflt d).image = some none ∧
    (∀ base, coze_api_url base (normalizeRequest cfg dflt d).hasImage =
      "https://" ++ base ++ "/v3/vision/chat?") := by
  have himg : (normalizeRequest cfg dflt d).hasImage = true := by
    show (d.messages.dropLast.any isImageHist ||
      isImageQuery (d.messages.getLastD emptyMsg)) = true
    rw [hm, List.dropLast_concat, hhist]
    rfl
  refine ⟨himg, ?_, ?_, ?_⟩
  · show (if (d.messages.dropLast.any isImageHist ||
        isImageQuery (d.messages.getLastD emptyMsg)) then none
        else some (queryStringOf (d.messages.getLastD emptyMsg))) = none
    rw [hm, List.dropLast_concat, hhist]
    rfl
  · show (if (d.messages.dropLast.any isImageHist ||
        isImageQuery (d.messages.getLastD emptyMsg))
        then some (queryObjOf (d.messages.getLastD emptyMsg)).image
        else none) = some none
    rw [hm, List.dropLast_concat, List.getLastD_concat, hhist]
    simp [queryObjOf, hlast]
  · intro base
    rw [himg]
    rfl

/-- Closed witness for C10: image in history, text final message. -/
theorem c10_history_image_drops_final_text_witness :
    (normalizeRequest [] "b"
      { messages := [
          { role := some "user", content := none, content_type := some "image",
            image_url := some "http://h/a.png", image_type := none },
          { role := some "user", content := some "what is it",
            content_type := none, image_url := none, image_type := none }],
        model := none, user := none, stream := none }).query = none ∧
    (normalizeRequest [] "b"
      { messages := [
          { role := some "user", content := none, content_type := some "image",
            image_url := some "http://h/a.png", image_type := none },
          { role := some "user", content := some "what is it",
            content_type := none, image_url := none, image_type := none }],
        model := none, user := none, stream := none }).image = some none := by
  have h := c10_history_image_drops_final_text [] "b"
    { messages := [
        { role := some "user", content := none, content_type := some "image",
          image_url := some "http://h/a.png", image_type := none },
        { role := some "user", content := some "what is it",
          content_type := none, image_url := none, image_type := none }],
      model := none, user := none, stream := none }
    [{ role := some "user", content := none, content_type := some "image",
        image_url := some "http://h/a.png", image_type := none }]
    { role := some "user", content := some "what is it",
        content_type := none, image_url := none, image_type := none }
    rfl (by decide) (by decide)
  exact ⟨h.2.1, h.2.2.1⟩

/-! ## Non-streaming claims C5, C6 -/

/-- C5 counterexample: an image-typed answer message without an image
object is selected as the answer, but the returned content is the
JSON.stringify rendering of its raw content, which is neither the
content verbatim nor the content/image envelope. -/
theorem c5_counterexample :
    nonStreamHandler
      { code := some 0, msg := some "success",
        messages := [
          { role := some "assistant", type := none,
            content_type := some "image", content := some "hi",
            image := none }] } =
      .ok (.jsonOf (.str (some "hi"))) "stop" ∧
    (OutContent.jsonOf (.str (some "hi")) ≠ OutContent.raw (some "hi")) := by
  exact ⟨rfl, by decide⟩

/-- C5 amended: for a success body the first message with role
assistant and (type answer or content_type image) is the answer;
finish_reason is stop and the returned content is the raw content
verbatim when the effective content type is text, the JSON of the
content/image envelope when it is image and an image object is
attached, and the JSON-stringified raw content otherwise; when no
message qualifies the handler fails with the 500 No-answer error. -/
theorem c5_answer_selection (body : CozeBody)
    (h0 : body.code = some 0) (h1 : body.msg = some "success") :
    (∀ m, body.messages.find? isAnswer = some m →
      nonStreamHandler body = .ok (answerContent m) "stop" ∧
      httpStatus (nonStreamHandler body) = 200 ∧
      (jsOrStr m.content_type "text" = "text" →
        answerContent m = .raw m.content) ∧
      (∀ img, jsOrStr m.content_type "text" = "image" → m.image = some img →
        answerContent m =
          .jsonOf (.envelope "[图片]"
            ⟨img.url, some (jsOrStr img.type "image/jpeg")⟩)) ∧
      (jsOrStr m.content_type "text" ≠ "text" →
        ¬ (jsOrStr m.content_type "text" = "image" ∧ m.image.isSome) →
        answerContent m = .jsonOf (.str m.content))) ∧
    (body.messages.find? isAnswer = none →
      nonStreamHandler body = .noAnswer ∧
      httpStatus (nonStreamHandler body) = 500) := by
  constructor
  · intro m hfind
    have hok : nonStreamHandler body = .ok (answerContent m) "stop" := by
      unfold nonStreamHandler
      rw [if_pos ⟨h0, h1⟩, hfind]
    refine ⟨hok, by rw [hok]; rfl, ?_, ?_, ?_⟩
    · intro ht
      simp [answerContent, ht]
    · intro img hti himg
      simp [answerContent, hti, himg]
    · intro ht hni
      simp only [answerContent]
      rw [if_neg hni, if_neg ht]
  · intro hfind
    have hno : nonStreamHandler body = .noAnswer := by
      unfold nonStreamHandler
      rw [if_pos ⟨h0, h1⟩, hfind]
    exact ⟨hno, by rw [hno]; rfl⟩

/-- Closed witness for C5 amended at the spec scenario: a success
body with one assistant answer message with content hello yields a
200 document whose content is hello verbatim with finish_reason
stop. -/
theorem c5_answer_selection_witness :
    nonStreamHandler
      { code := some 0, msg := some "success",
        messages := [
          { role := some "assistant", type := some "answer",
            content_type := none, content := some "hello",
            image := none }] } = .ok (.raw (some "hello")) "stop" := by
  have h := (c5_answer_selection
    { code := some 0, msg := some "success",
      messages := [
        { role := some "assistant", type := some "answer",
          content_type := none, content := some "hello", image := none }] }
    rfl rfl).1
    { role := some "assistant", type := some "answer",
      content_type := none, content := some "hello", image := none }
    (by decide)
  rw [h.1, h.2.2.1 (by decide)]

/-- C6: a body carrying a non-zero application code yields the 500
application-error envelope with the upstream msg, and only bodies
with code 0 and msg success escape that envelope. -/
theorem c6_application_error (body : CozeBody) :
    (∀ c, body.code = some c → c ≠ 0 →
      nonStreamHandler body = .appError body.msg ∧
      httpStatus (nonStreamHandler body) = 500) ∧
    (nonStreamHandler body = .appError body.msg ∨
      (body.code = some 0 ∧ body.msg = some "success")) := by
  constructor
  · intro c hc hne
    have happ : nonStreamHandler body = .appError body.msg := by
      unfold nonStreamHandler
      rw [if_neg]
      rintro ⟨h0, -⟩
      rw [hc] at h0
      exact hne (Option.some.inj h0)
    exact ⟨happ, by rw [happ]; rfl⟩
  · by_cases h : body.code = some 0 ∧ body.msg = some "success"
    · exact Or.inr h
    · refine Or.inl ?_
      unfold nonStreamHandler
      rw [if_neg h]

/-- Closed witness for C6 at the spec scenario: a body with code 1
and msg boom yields the 500 envelope carrying boom. -/
theorem c6_application_error_witness :
    nonStreamHandler { code := some 1, msg := some "boom", messages := [] } =
      .appError (some "boom") ∧
    httpStatus (nonStreamHandler
      { code := some 1, msg := some "boom", messages := [] }) = 500 :=
  (c6_application_error
    { code := some 1, msg := some "boom", messages := [] }).1
    1 rfl (by decide)

/-! ## Streaming claims C3, C4, C7, C8 -/

lemma applyEffect_nil (st : BridgeState) :
    applyEffect st ([], false, false) = st := by
  simp [applyEffect]

/-- C3 counterexample: a message event matching the predicate (role
assistant, content_type image) with non-empty content but no image
object emits no chunk at all; instead the dispatch code throws while
reading message.image.type, the catch handler ends the response and
processing aborts. -/
theorem c3_counterexample :
    dispatchEffect (.message
      { role := some "assistant", type := none,
        content_type := some "image", content := some "x",
        image := none }) = ([], true, true) ∧
    (applyEffect initState (dispatchEffect (.message
      { role := some "assistant", type := none,
        content_type := some "image", content := some "x",
        image := none }))).writes = [] ∧
    (applyEffect initState (dispatchEffect (.message
      { role := some "assistant", type := none,
        content_type := some "image", content := some "x",
        image := none }))).aborted = true := by
  exact ⟨rfl, rfl, rfl⟩

/-- C3 amended: for message events matching the predicate (role
assistant and (type answer or content_type image)), a text-typed
event emits exactly one chunk with finish_reason null and the content
as delta unless the content is the empty string; an image-typed event
with an image object emits exactly one image-envelope chunk unless
the image URL is empty; an image-typed event without an image object
whose content is not the empty string raises and aborts the stream
with no chunk; empty effective content is swallowed; and non-matching
message events, ping and unrecognized kinds have no effect. -/
theorem c3_message_dispatch (m : CozeMsg) :
    (m.role = some "assistant" ∧
        (m.type = some "answer" ∨ m.content_type = some "image") →
      ((jsOrStr m.content_type "text" ≠ "image" → m.content ≠ some "" →
        dispatchEffect (.message m) =
          ([.chunk (.text m.content) none], false, false)) ∧
       (jsOrStr m.content_type "text" ≠ "image" → m.content = some "" →
        dispatchEffect (.message m) = ([], false, false)) ∧
       (∀ img, jsOrStr m.content_type "text" = "image" → m.image = some img →
        img.url ≠ "" →
        dispatchEffect (.message m) =
          ([.chunk (.image "[图片]" img.url (jsOrStr img.type "image/jpeg"))
              none], false, false)) ∧
       (∀ img, jsOrStr m.content_type "text" = "image" → m.image = some img →
        img.url = "" →
        dispatchEffect (.message m) = ([], false, false)) ∧
       (jsOrStr m.content_type "text" = "image" → m.image = none →
        m.content ≠ some "" →
        dispatchEffect (.message m) = ([], true, true)) ∧
       (jsOrStr m.content_type "text" = "image" → m.image = none →
        m.content = some "" →
        dispatchEffect (.message m) = ([], false, false)))) ∧
    (¬ (m.role = some "assistant" ∧
        (m.type = some "answer" ∨ m.content_type = some "image")) →
      dispatchEffect (.message m) = ([], false, false)) ∧
    dispatchEffect .ping = ([], false, false) ∧
    (∀ k, dispatchEffect (.other k) = ([], false, false)) := by
  refine ⟨?_, ?_, rfl, fun _ => rfl⟩
  · intro hmatch
    refine ⟨?_, ?_, ?_, ?_, ?_, ?_⟩
    · intro hct hc
      simp [dispatchEffect, hmatch, hct, hc]
    · intro hct hc
      simp [dispatchEffect, hmatch, hct, hc]
    · intro img hct himg hurl
      simp [dispatchEffect, hmatch, hct, himg, hurl]
    · intro img hct himg hurl
      simp [dispatchEffect, hmatch, hct, himg, hurl]
    · intro hct himg hc
      simp [dispatchEffect, hmatch, hct, himg, hc]
    · intro hct himg hc
      simp [dispatchEffect, hmatch, hct, himg, hc]
  · intro hmatch
    simp [dispatchEffect, hmatch]

/-- Closed witness for C3 amended: an assistant answer message with
content hello emits exactly one text chunk with null finish_reason. -/
theorem c3_message_dispatch_witness :
    dispatchEffect (.message
      { role := some "assistant", type := some "answer",
        content_type := none, content := some "hello", image := none }) =
      ([.chunk (.text (some "hello")) none], false, false) :=
  ((c3_message_dispatch
    { role := some "assistant", type := some "answer",
      content_type := none, content := some "hello", image := none }).1
    (by decide)).1 (by decide) (by decide)

/-- C4 counterexample: an arrival carrying two done frames produces
two terminal sequences; the second done line, already buffered when
the first was processed, is dispatched rather than discarded, and its
writes happen after the response was ended. -/
theorem c4_counterexample :
    (runArrivals parseTest initState [twoDoneBytes]).writes =
      [.chunk .empty (some "stop"), .sentinel,
       .chunk .empty (some "stop"), .sentinel] ∧
    (runArrivals parseTest initState [twoDoneBytes]).writes.count
      OutboundWrite.sentinel = 2 ∧
    (runArrivals parseTest initState [twoDoneBytes]).ended = true := by
  refine ⟨by decide, by decide, by decide⟩

/-- C4 amended: every done event dispatched appends its own terminal
chunk and sentinel and ends the response, regardless of whether a
terminal sequence was already emitted, and line processing never
discards a buffered line based on the response having ended -- so a
connection emits at most one terminal sequence only when the upstream
sends at most one done or error frame before further dispatchable
frames. -/
theorem c4_done_dispatch_unconditional (st : BridgeState) :
    applyEffect st (dispatchEffect .done) =
      { st with
        writes := st.writes ++ [.chunk .empty (some "stop"), .sentinel],
        ended := true } ∧
    (∀ (parse : List Char → Option CozeEvent) (l : List Char)
        (ls : List (List Char)), st.aborted = false →
      processLines parse st (l :: ls) =
        processLines parse (processLine parse st l) ls) := by
  constructor
  · simp [applyEffect, dispatchEffect]
  · intro parse l ls hab
    simp [processLines, hab]

/-- Closed witness for the C4 amended theorem: dispatching done on an
already-ended state still appends a full terminal sequence, and a
buffered line after a processed line is still handled. -/
theorem c4_done_dispatch_unconditional_witness :
    applyEffect { initState with ended := true } (dispatchEffect .done) =
      { initState with
        ended := true,
        writes := [.chunk .empty (some "stop"), .sentinel] } ∧
    processLines parseTest initState [doneLine, doneLine] =
      processLines parseTest (processLine parseTest initState doneLine)
        [doneLine] :=
  ⟨(c4_done_dispatch_unconditional { initState with ended := true }).1,
   (c4_done_dispatch_unconditional initState).2 parseTest doneLine [doneLine]
     rfl⟩

/-- C7 counterexample: the error envelope written by app.js:364-371
has inner keys error and message and no type key, so the outbound
error envelope does not have the claimed shape with a message and a
type field. -/
theorem c7_counterexample :
    applyEffect initState
      (dispatchEffect (.error (some 4000) (some "boom") none)) =
      { initState with
        writes := [.errEnv (some "4000 boom"), .sentinel], ended := true } ∧
    Json.lookupKey (errorEnvelopeJson (some "4000 boom")) "error" =
      some (.obj [("error", .str "Unexpected response from Coze API."),
        ("message", .str "4000 boom")]) ∧
    ((Json.lookupKey (errorEnvelopeJson (some "4000 boom")) "error").map
      (fun j => Json.lookupKey j "type")) = some none := by
  refine ⟨rfl, rfl, rfl⟩

/-- C7 amended: every error event appends exactly one error envelope
followed by the sentinel and ends the response; the envelope message
is the nested error_information err_msg whenever error_information is
present, else the concatenation of the code and the top-level
message, and the envelope's inner object carries a fixed error notice
and the message, with no type field. -/
theorem c7_error_dispatch (st : BridgeState) (code : Option Int)
    (msg : Option String) (info : Option ErrInfo) :
    applyEffect st (dispatchEffect (.error code msg info)) =
      { st with
        writes := st.writes ++ [.errEnv (errMsgOf code msg info), .sentinel],
        ended := true } ∧
    (∀ i, errMsgOf code msg (some i) = i.err_msg) ∧
    errMsgOf code msg none = some (jsShowCode code ++ " " ++ jsShowMsg msg) ∧
    (∀ emsg, Json.lookupKey (errorEnvelopeJson (some emsg)) "error" =
      some (.obj [("error", .str "Unexpected response from Coze API."),
        ("message", .str emsg)])) := by
  refine ⟨?_, fun i => rfl, rfl, fun emsg => rfl⟩
  simp [applyEffect, dispatchEffect]

/-- C8: a complete line is trimmed; lines without the data marker,
payloads that do not start with an opening brace, and payloads whose
parse fails are all dropped with no write and no state change, and
processing continues with the following lines. -/
theorem c8_malformed_line_tolerance (parse : List Char → Option CozeEvent)
    (st : BridgeState) (l : List Char) :
    (dataMark.isPrefixOf (lcTrim l) = false → processLine parse st l = st) ∧
    (dataMark.isPrefixOf (lcTrim l) = true →
      (lcTrim ((lcTrim l).drop 5)).head? ≠ some lbrace →
      processLine parse st l = st) ∧
    (parse (lcTrim ((lcTrim l).drop 5)) = none → processLine parse st l = st) ∧
    (∀ ls, processLine parse st l = st →
      processLines parse st (l :: ls) = processLines parse st ls) := by
  refine ⟨?_, ?_, ?_, ?_⟩
  · intro h
    simp [processLine, lineEffect, h, applyEffect_nil]
  · intro h1 h2
    simp [processLine, lineEffect, h1, h2, applyEffect_nil]
  · intro h
    simp only [processLine, lineEffect]
    split
    · split
      · rw [h]
        exact applyEffect_nil st
      · exact applyEffect_nil st
    · exact applyEffect_nil st
  · intro ls hl
    by_cases hab : st.aborted
    · simp [processLines, hab]
    · simp [processLines, hab, hl]

/-- Closed witness for C8: a markerless line, a sentinel-shaped
payload, and an unparseable object payload are each dropped without
state change, and a dropped line does not stop later lines from
being processed. -/
theorem c8_malformed_line_tolerance_witness :
    processLine parseTest initState "noise".data = initState ∧
    processLine parseTest initState "data: [DONE]".data = initState ∧
    processLine parseTest initState
      ("data: ".data ++ [lbrace] ++ "bad".data) = initState ∧
    processLines parseTest initState ("noise".data :: [doneLine]) =
      processLines parseTest initState [doneLine] :=
  ⟨(c8_malformed_line_tolerance parseTest initState "noise".data).1 (by decide),
   (c8_malformed_line_tolerance parseTest initState "data: [DONE]".data).2.1
     (by decide) (by decide),
   (c8_malformed_line_tolerance parseTest initState
     ("data: ".data ++ [lbrace] ++ "bad".data)).2.2.1 (by decide),
   (c8_malformed_line_tolerance parseTest initState "noise".data).2.2.2
     [doneLine]
     ((c8_malformed_line_tolerance parseTest initState "noise".data).1
       (by decide))⟩
